import Mathlib

/-!
Shallow embedding of `kazoo/protocol/serialization.py`, the ZooKeeper
client wire-format codec, together with proofs about its primitives and
message types.

Modelling conventions:
* Python `bytes` values are `List Nat`, one element per byte (encoders only
  ever emit values `< 256`; decoders read bytes through `% 256`).
* Python `str` values are lists of Unicode code points (`List Nat`); a field
  that may also be Python `None` is an `Option (List Nat)` with `none` for
  `None`.
* `struct.pack`/`unpack_from` on the compiled format objects become explicit
  big-endian byte arithmetic on `Nat`/`Int`; `pack` raising `struct.error`
  for an out-of-range argument, and `unpack_from` raising when fewer bytes
  than the format size remain, are modelled by `Option`.
* Code that can raise (`UnicodeDecodeError`, `struct.error`, attribute
  errors) returns `none`.
-/

namespace KazooSer

/-- Big-endian value of a byte list (each element read modulo 256),
as produced by `struct.unpack` on the raw bytes. -/
def beBytes (l : List Nat) : Nat :=
  l.foldl (fun a x => a * 256 + x % 256) 0

/-- Reinterpret an unsigned 32-bit value as the signed integer that
`struct.unpack('!i', ...)` returns. -/
def signed32 (u : Nat) : Int :=
  if u < 0x80000000 then (u : Int) else (u : Int) - 0x100000000

/-- Reinterpret an unsigned 64-bit value as the signed integer that
`struct.unpack('!q', ...)` returns. -/
def signed64 (u : Nat) : Int :=
  if u < 0x8000000000000000 then (u : Int) else (u : Int) - 0x10000000000000000

/-- The four big-endian bytes of a signed 32-bit integer: the byte image
that `struct.pack('!i', n)` produces for an in-range `n`. -/
def packi (n : Int) : List Nat :=
  [(n % 0x100000000).toNat / 0x1000000 % 0x100,
   (n % 0x100000000).toNat / 0x10000 % 0x100,
   (n % 0x100000000).toNat / 0x100 % 0x100,
   (n % 0x100000000).toNat % 0x100]

/-- The eight big-endian bytes of a signed 64-bit integer: the byte image
that `struct.pack('!q', n)` produces for an in-range `n`. -/
def packq (n : Int) : List Nat :=
  [(n % 0x10000000000000000).toNat / 0x100000000000000 % 0x100,
   (n % 0x10000000000000000).toNat / 0x1000000000000 % 0x100,
   (n % 0x10000000000000000).toNat / 0x10000000000 % 0x100,
   (n % 0x10000000000000000).toNat / 0x100000000 % 0x100,
   (n % 0x10000000000000000).toNat / 0x1000000 % 0x100,
   (n % 0x10000000000000000).toNat / 0x10000 % 0x100,
   (n % 0x10000000000000000).toNat / 0x100 % 0x100,
   (n % 0x10000000000000000).toNat % 0x100]

/-- `int_struct.pack(n)`: fails (raises `struct.error`) outside the signed
32-bit range. -/
def int_struct_pack (n : Int) : Option (List Nat) :=
  if -0x80000000 ≤ n ∧ n < 0x80000000 then some (packi n) else none

/-- `struct.pack('!q', n)` for one long field: fails outside the signed
64-bit range. -/
def long_pack (n : Int) : Option (List Nat) :=
  if -0x8000000000000000 ≤ n ∧ n < 0x8000000000000000 then some (packq n) else none

/-- `int_struct.size` (format `'!i'`). -/
def int_struct_size : Nat := 4

/-- Read a 4-byte big-endian signed integer from the head of a byte list. -/
def seqInt (l : List Nat) : Int × List Nat :=
  (signed32 (beBytes (l.take 4)), l.drop 4)

/-- Read an 8-byte big-endian signed integer from the head of a byte list. -/
def seqLong (l : List Nat) : Int × List Nat :=
  (signed64 (beBytes (l.take 8)), l.drop 8)

/-- `int_struct.unpack_from(buffer, offset)[0]`: fails when fewer than 4
bytes remain at `offset`. -/
def int_struct_unpack_from (b : List Nat) (off : Nat) : Option Int :=
  if off + int_struct_size ≤ b.length then some (seqInt (b.drop off)).1 else none

/-- UTF-8 encoding of one Unicode code point, as `str.encode('utf-8')`
produces it; `none` for a surrogate or an out-of-range value (Python raises
`UnicodeEncodeError` there). -/
def utf8EncodeChar (c : Nat) : Option (List Nat) :=
  if c < 0x80 then some [c]
  else if c < 0x800 then some [0xC0 + c / 64, 0x80 + c % 64]
  else if c < 0xD800 then some [0xE0 + c / 4096, 0x80 + c / 64 % 64, 0x80 + c % 64]
  else if c < 0xE000 then none
  else if c < 0x10000 then some [0xE0 + c / 4096, 0x80 + c / 64 % 64, 0x80 + c % 64]
  else if c < 0x110000 then
    some [0xF0 + c / 262144, 0x80 + c / 4096 % 64, 0x80 + c / 64 % 64, 0x80 + c % 64]
  else none

/-- UTF-8 encoding of a string of code points (`str.encode('utf-8')`). -/
def utf8Encode : List Nat → Option (List Nat)
  | [] => some []
  | c :: cs =>
    match utf8EncodeChar c, utf8Encode cs with
    | some e, some es => some (e ++ es)
    | _, _ => none

/-- One-byte-at-a-time strict UTF-8 decoding automaton.  The state is `none`
at a character boundary, or `some (v, k, lo, hi)` inside a multi-byte
sequence: `v` is the value accumulated so far, `k` the number of
continuation bytes still expected, and `[lo, hi)` the admissible range of
the next byte (which enforces the overlong and surrogate restrictions). -/
def utf8Go : Option (Nat × Nat × Nat × Nat) → List Nat → Option (List Nat)
  | none, [] => some []
  | some _, [] => none
  | none, b :: t =>
    if b < 0x80 then (utf8Go none t).map (fun cs => b :: cs)
    else if b < 0xC2 then none
    else if b < 0xE0 then utf8Go (some (b - 0xC0, 1, 0x80, 0xC0)) t
    else if b = 0xE0 then utf8Go (some (0, 2, 0xA0, 0xC0)) t
    else if b = 0xED then utf8Go (some (13, 2, 0x80, 0xA0)) t
    else if b < 0xF0 then utf8Go (some (b - 0xE0, 2, 0x80, 0xC0)) t
    else if b = 0xF0 then utf8Go (some (0, 3, 0x90, 0xC0)) t
    else if b = 0xF4 then utf8Go (some (4, 3, 0x80, 0x90)) t
    else if b < 0xF4 then utf8Go (some (b - 0xF0, 3, 0x80, 0xC0)) t
    else none
  | some (v, k, lo, hi), b :: t =>
    if lo ≤ b ∧ b < hi then
      if k ≤ 1 then (utf8Go none t).map (fun cs => (v * 64 + (b - 0x80)) :: cs)
      else utf8Go (some (v * 64 + (b - 0x80), k - 1, 0x80, 0xC0)) t
    else none

/-- Strict UTF-8 decoding of a byte list into code points, as
`bytes.decode('utf-8')`: rejects bad continuation bytes, truncated or
overlong sequences, surrogates and values above `U+10FFFF` (`none` models
`UnicodeDecodeError`). -/
def utf8Decode (l : List Nat) : Option (List Nat) := utf8Go none l

/-- `read_string(buffer, offset)`: reads the 4-byte length; a negative
length yields the absent string (`None`) with the offset advanced past the
length field only; otherwise decodes the next `length` bytes as UTF-8 and
advances past them. `none` models an exception (short length field or
invalid UTF-8). -/
def read_string (buffer : List Nat) (offset : Nat) :
    Option (Option (List Nat) × Nat) :=
  (int_struct_unpack_from buffer offset).bind (fun length =>
    if length < 0 then some (none, offset + int_struct_size)
    else
      (utf8Decode ((buffer.drop (offset + int_struct_size)).take length.toNat)).map
        (fun s => (some s, offset + int_struct_size + length.toNat)))

/-- `write_string(bytes)`: `-1` for an absent or empty string, otherwise
the UTF-8 byte length followed by the UTF-8 bytes. `none` models a raised
exception (surrogate in the string, or length out of 32-bit range). -/
def write_string (s : Option (List Nat)) : Option (List Nat) :=
  match s with
  | none => some (packi (-1))
  | some [] => some (packi (-1))
  | some cs =>
    (utf8Encode cs).bind (fun u =>
      (int_struct_pack (u.length : Int)).map (fun lp => lp ++ u))

/-- `write_buffer(bytes)`: `-1` for an absent or empty buffer, otherwise the
byte length followed by the raw bytes. -/
def write_buffer (b : Option (List Nat)) : Option (List Nat) :=
  match b with
  | none => some (packi (-1))
  | some [] => some (packi (-1))
  | some bs =>
    (int_struct_pack (bs.length : Int)).map (fun lp => lp ++ bs)

/-- `read_buffer(bytes, offset)`: reads the 4-byte length; a negative length
yields an empty result (the source returns the empty string `""` there, not
`None`) with the offset advanced past the length field only; otherwise the
next `length` raw bytes. -/
def read_buffer (b : List Nat) (off : Nat) : Option (List Nat × Nat) :=
  (int_struct_unpack_from b off).bind (fun length =>
    if length < 0 then some ([], off + int_struct_size)
    else some ((b.drop (off + int_struct_size)).take length.toNat,
               off + int_struct_size + length.toNat))

/-- Modelled from the spec: the identity pair of `kazoo.security.Id`
(scheme name, identifier), a consumed type outside this excerpt; its shape
is fixed by spec §3 and by its use in `read_acl` and `Create.serialize`. -/
structure Id where
  scheme : Option (List Nat)
  id : Option (List Nat)
deriving DecidableEq

/-- Modelled from the spec: `kazoo.security.ACL` (permission bitmask plus
identity pair), a consumed type outside this excerpt; its shape is fixed by
spec §3 and by its use in `read_acl` and `Create.serialize`. -/
structure ACL where
  perms : Int
  id : Id
deriving DecidableEq

/-- `read_acl(bytes, offset)`: a 4-byte permission bitmask, then two
length-prefixed strings (scheme, id). -/
def read_acl (bytes : List Nat) (offset : Nat) : Option (ACL × Nat) :=
  (int_struct_unpack_from bytes offset).bind (fun perms =>
    (read_string bytes (offset + int_struct_size)).bind (fun sr =>
      (read_string bytes sr.2).map (fun ir =>
        (⟨perms, ⟨sr.1, ir.1⟩⟩, ir.2))))

/-- One ACL entry as encoded inline by `Create.serialize`:
`int_struct.pack(acl.perms) + write_string(acl.id.scheme) +
write_string(acl.id.id)`. -/
def write_acl_entry (acl : ACL) : Option (List Nat) :=
  (int_struct_pack acl.perms).bind (fun p =>
    (write_string acl.id.scheme).bind (fun s =>
      (write_string acl.id.id).map (fun i => p ++ s ++ i)))

/-- The entry loop of `Create.serialize` (entries in list order, no count). -/
def write_acls : List ACL → Option (List Nat)
  | [] => some []
  | a :: rest =>
    (write_acl_entry a).bind (fun e =>
      (write_acls rest).map (fun es => e ++ es))

/-- The count-prefixed ACL-list encoding as inlined in `Create.serialize`:
4-byte count, then the entries in order. -/
def write_acl_list (acls : List ACL) : Option (List Nat) :=
  (int_struct_pack (acls.length : Int)).bind (fun cnt =>
    (write_acls acls).map (fun es => cnt ++ es))

/-- The entry-reading loop of `GetACL.deserialize`: `count` successive
`read_acl` calls threading the offset. -/
def read_acl_n : List Nat → Nat → Nat → Option (List ACL × Nat)
  | _, offset, 0 => some ([], offset)
  | bytes, offset, n + 1 =>
    (read_acl bytes offset).bind (fun ar =>
      (read_acl_n bytes ar.2 n).map (fun rr => (ar.1 :: rr.1, rr.2)))

/-- The ACL-list portion of `GetACL.deserialize`: the 4-byte count (`-1`
short-circuits to the empty list), then `count` entries via `read_acl`,
without the trailing node-metadata record. -/
def read_acl_list (bytes : List Nat) (offset : Nat) : Option (List ACL × Nat) :=
  (int_struct_unpack_from bytes offset).bind (fun count =>
    if count = -1 then some ([], offset + int_struct_size)
    else read_acl_n bytes (offset + int_struct_size) count.toNat)

/-- Modelled from the spec: `kazoo.protocol.states.ZnodeStat` is outside
this excerpt; its eleven fields and their order are taken from spec §3
(it is consumed here only through `ZnodeStat._make` applied to the
`stat_struct` tuple, and through its `czxid` field). -/
structure ZnodeStat where
  czxid : Int
  mzxid : Int
  ctime : Int
  mtime : Int
  version : Int
  cversion : Int
  aversion : Int
  ephemeralOwner : Int
  dataLength : Int
  numChildren : Int
  pzxid : Int
deriving DecidableEq

/-- `stat_struct.size` for format `'!qqqqiiiqiiq'`: the sum of the widths of
its six 8-byte and five 4-byte fields. -/
def stat_struct_size : Nat := 8 + 8 + 8 + 8 + 4 + 4 + 4 + 8 + 4 + 4 + 8

/-- `ZnodeStat._make(stat_struct.unpack_from(bytes, offset))`: the eleven
fields of format `'!qqqqiiiqiiq'` in order; fails when fewer than
`stat_struct.size` bytes remain at `offset`. -/
def stat_struct_unpack_from (b : List Nat) (off : Nat) : Option ZnodeStat :=
  if off + stat_struct_size ≤ b.length then
    let r1 := seqLong (b.drop off)
    let r2 := seqLong r1.2
    let r3 := seqLong r2.2
    let r4 := seqLong r3.2
    let r5 := seqInt r4.2
    let r6 := seqInt r5.2
    let r7 := seqInt r6.2
    let r8 := seqLong r7.2
    let r9 := seqInt r8.2
    let r10 := seqInt r9.2
    let r11 := seqLong r10.2
    some ⟨r1.1, r2.1, r3.1, r4.1, r5.1, r6.1, r7.1,
          r8.1, r9.1, r10.1, r11.1⟩
  else none

/-- Synthetic encoder for the node-metadata record, used to build the test
buffers of the spec's testable properties (the codec itself defines no stat
encoder): each field packed at its width, in field order. -/
def stat_struct_pack (s : ZnodeStat) : List Nat :=
  packq s.czxid ++ packq s.mzxid ++ packq s.ctime ++ packq s.mtime ++
  packi s.version ++ packi s.cversion ++ packi s.aversion ++
  packq s.ephemeralOwner ++ packi s.dataLength ++ packi s.numChildren ++
  packq s.pzxid

/-- All fields of the record are within the ranges of their wire widths. -/
def ValidStat (s : ZnodeStat) : Prop :=
  -0x8000000000000000 ≤ s.czxid ∧ s.czxid < 0x8000000000000000 ∧
  -0x8000000000000000 ≤ s.mzxid ∧ s.mzxid < 0x8000000000000000 ∧
  -0x8000000000000000 ≤ s.ctime ∧ s.ctime < 0x8000000000000000 ∧
  -0x8000000000000000 ≤ s.mtime ∧ s.mtime < 0x8000000000000000 ∧
  -0x80000000 ≤ s.version ∧ s.version < 0x80000000 ∧
  -0x80000000 ≤ s.cversion ∧ s.cversion < 0x80000000 ∧
  -0x80000000 ≤ s.aversion ∧ s.aversion < 0x80000000 ∧
  -0x8000000000000000 ≤ s.ephemeralOwner ∧ s.ephemeralOwner < 0x8000000000000000 ∧
  -0x80000000 ≤ s.dataLength ∧ s.dataLength < 0x80000000 ∧
  -0x80000000 ≤ s.numChildren ∧ s.numChildren < 0x80000000 ∧
  -0x8000000000000000 ≤ s.pzxid ∧ s.pzxid < 0x8000000000000000

instance (s : ZnodeStat) : Decidable (ValidStat s) := by
  unfold ValidStat
  infer_instance

/-- `int_int_long_struct.size` (format `'!iiq'`). -/
def int_int_long_struct_size : Nat := 4 + 4 + 8

/-- `int_int_long_struct.unpack_from(bytes, offset)` (format `'!iiq'`). -/
def int_int_long_struct_unpack_from (b : List Nat) (off : Nat) :
    Option (Int × Int × Int) :=
  if off + int_int_long_struct_size ≤ b.length then
    let r1 := seqInt (b.drop off)
    let r2 := seqInt r1.2
    let r3 := seqLong r2.2
    some (r1.1, r2.1, r3.1)
  else none

/-- `int_long_int_long_struct.pack(a, b, c, d)` (format `'!iqiq'`). -/
def int_long_int_long_struct_pack (a b c d : Int) : Option (List Nat) :=
  (int_struct_pack a).bind (fun x1 =>
    (long_pack b).bind (fun x2 =>
      (int_struct_pack c).bind (fun x3 =>
        (long_pack d).map (fun x4 => x1 ++ x2 ++ x3 ++ x4))))

/-- The `Connect` handshake request (`namedtuple` fields
`protocol_version last_zxid_seen time_out session_id passwd read_only`).
The `read_only` field is an `Int` because `deserialize` reconstructs it as
the integer `0`; `serialize` only tests its truthiness. -/
structure Connect where
  protocol_version : Int
  last_zxid_seen : Int
  time_out : Int
  session_id : Int
  passwd : Option (List Nat)
  read_only : Int
deriving DecidableEq

/-- `Connect.serialize`: `(int, long, int, long)` header, then the
length-prefixed password buffer, then one byte for the read-only flag. -/
def Connect.serialize (m : Connect) : Option (List Nat) :=
  (int_long_int_long_struct_pack m.protocol_version m.last_zxid_seen
      m.time_out m.session_id).bind (fun hdr =>
    (write_buffer m.passwd).map (fun pw =>
      hdr ++ pw ++ [if m.read_only ≠ 0 then 1 else 0]))

/-- `Connect.deserialize`: the `(int, int, long)` response header, then the
length-prefixed password; `last_zxid_seen` and `read_only` are filled in as
`0` because the response layout omits them. -/
def Connect.deserialize (bytes : List Nat) (offset : Nat) :
    Option (Connect × Nat) :=
  (int_int_long_struct_unpack_from bytes offset).bind (fun hdr =>
    (read_buffer bytes (offset + int_int_long_struct_size)).map (fun pr =>
      (⟨hdr.1, 0, hdr.2.1, hdr.2.2, some pr.1, 0⟩, pr.2)))

/-- `Create` namedtuple: fields `path data acl flags`. -/
structure Create where
  path : Option (List Nat)
  data : Option (List Nat)
  acl : List ACL
  flags : Int
deriving DecidableEq

/-- `Create.serialize`: path, data buffer, ACL count, the ACL entries in
order, then the flags. -/
def Create.serialize (m : Create) : Option (List Nat) :=
  (write_string m.path).bind (fun p =>
    (write_buffer m.data).bind (fun d =>
      (int_struct_pack (m.acl.length : Int)).bind (fun cnt =>
        (write_acls m.acl).bind (fun es =>
          (int_struct_pack m.flags).map (fun f => p ++ d ++ cnt ++ es ++ f)))))

/-- `Create.deserialize`: `read_string(bytes, offset)[0]` — the created path
without the offset. -/
def Create.deserialize (bytes : List Nat) (offset : Nat) :
    Option (Option (List Nat)) :=
  (read_string bytes offset).map (fun r => r.1)

/-- The `Exists` request type of the source (named `ExistsOp` here because
`Exists` is Lean's existential quantifier); fields `path watcher`. -/
structure ExistsOp where
  path : Option (List Nat)
  watcher : Bool
deriving DecidableEq

/-- `Exists.serialize`: length-prefixed path, then one watch-flag byte. -/
def ExistsOp.serialize (m : ExistsOp) : Option (List Nat) :=
  (write_string m.path).map (fun p => p ++ [if m.watcher then 1 else 0])

/-- `Exists.deserialize`: decodes the node-metadata record and returns it,
or `None` (the inner `none`) when its `czxid` field equals `-1`. -/
def ExistsOp.deserialize (bytes : List Nat) (offset : Nat) :
    Option (Option ZnodeStat) :=
  (stat_struct_unpack_from bytes offset).map (fun stat =>
    if stat.czxid ≠ -1 then some stat else none)

/-- `GetData` namedtuple: fields `path watcher`. -/
structure GetData where
  path : Option (List Nat)
  watcher : Bool
deriving DecidableEq

/-- `GetData.serialize`: length-prefixed path, then one watch-flag byte. -/
def GetData.serialize (m : GetData) : Option (List Nat) :=
  (write_string m.path).map (fun p => p ++ [if m.watcher then 1 else 0])

/-- `GetData.deserialize`: the data buffer, then the metadata record. -/
def GetData.deserialize (bytes : List Nat) (offset : Nat) :
    Option (List Nat × ZnodeStat) :=
  (read_buffer bytes offset).bind (fun dr =>
    (stat_struct_unpack_from bytes dr.2).map (fun stat => (dr.1, stat)))

/-- `SetData` namedtuple: fields `path data version`. -/
structure SetData where
  path : Option (List Nat)
  data : Option (List Nat)
  version : Int
deriving DecidableEq

/-- `SetData.serialize`: path, data buffer, then the 4-byte version. -/
def SetData.serialize (m : SetData) : Option (List Nat) :=
  (write_string m.path).bind (fun p =>
    (write_buffer m.data).bind (fun d =>
      (int_struct_pack m.version).map (fun v => p ++ d ++ v)))

/-- `SetData.deserialize`: the node-metadata record. -/
def SetData.deserialize (bytes : List Nat) (offset : Nat) : Option ZnodeStat :=
  stat_struct_unpack_from bytes offset

/-- `GetACL` namedtuple: field `path`. -/
structure GetACL where
  path : Option (List Nat)
deriving DecidableEq

/-- `GetACL.serialize`: just the length-prefixed path. -/
def GetACL.serialize (m : GetACL) : Option (List Nat) := write_string m.path

/-- Result of `GetACL.deserialize`: the source returns a bare list `[]` when
the count prefix is `-1`, and an `(acls, stat)` pair otherwise — the two
shapes of the sum below. -/
inductive GetACLResult where
  | bareList : List ACL → GetACLResult
  | withStat : List ACL → ZnodeStat → GetACLResult
deriving DecidableEq

/-- `GetACL.deserialize`: the 4-byte count (`-1` returns the bare empty
list), then `count` entries via `read_acl`, then the metadata record. -/
def GetACL.deserialize (bytes : List Nat) (offset : Nat) : Option GetACLResult :=
  (int_struct_unpack_from bytes offset).bind (fun count =>
    if count = -1 then some (GetACLResult.bareList [])
    else
      (read_acl_n bytes (offset + int_struct_size) count.toNat).bind (fun ar =>
        (stat_struct_unpack_from bytes ar.2).map (fun stat =>
          GetACLResult.withStat ar.1 stat)))

/-- `SetACL` namedtuple: fields `path acls version` (note the plural). -/
structure SetACL where
  path : Option (List Nat)
  acls : List ACL
  version : Int
deriving DecidableEq

/-- Attribute lookup `self.acl` on a `SetACL` value: the namedtuple declares
`acls`, not `acl`, so the lookup raises `AttributeError` — modelled as
`none`. -/
def SetACL.acl_lookup (_m : SetACL) : Option (List ACL) := none

/-- `SetACL.serialize`: writes the path, then evaluates `len(self.acl)` —
which fails, because the field is declared `acls` — then would write the
entries and the 4-byte version. -/
def SetACL.serialize (m : SetACL) : Option (List Nat) :=
  (write_string m.path).bind (fun p =>
    m.acl_lookup.bind (fun aclList =>
      (int_struct_pack (aclList.length : Int)).bind (fun cnt =>
        (write_acls aclList).bind (fun es =>
          (int_struct_pack m.version).map (fun v => p ++ cnt ++ es ++ v)))))

/-- `GetChildren` namedtuple: fields `path children watcher`; `children` is
never read by `serialize`. -/
structure GetChildren where
  path : Option (List Nat)
  children : Option (List (Option (List Nat)))
  watcher : Bool
deriving DecidableEq

/-- `GetChildren.serialize`: length-prefixed path, then one watch-flag
byte; the `children` field is not consulted. -/
def GetChildren.serialize (m : GetChildren) : Option (List Nat) :=
  (write_string m.path).map (fun p => p ++ [if m.watcher then 1 else 0])

/-! ## Arithmetic and shifting lemmas for the primitives -/

theorem length_packi (n : Int) : (packi n).length = 4 := rfl

theorem length_packq (n : Int) : (packq n).length = 8 := rfl

theorem drop_append_add (pre xs : List Nat) (k : Nat) :
    (pre ++ xs).drop (pre.length + k) = xs.drop k := by
  rw [← List.drop_drop, List.drop_left]

theorem seqInt_packi (n : Int) (rest : List Nat)
    (h1 : -0x80000000 ≤ n) (h2 : n < 0x80000000) :
    seqInt (packi n ++ rest) = (n, rest) := by
  have ht : (packi n ++ rest).take 4 = packi n := List.take_left' (length_packi n)
  have hd : (packi n ++ rest).drop 4 = rest := List.drop_left' (length_packi n)
  have hv : signed32 (beBytes (packi n)) = n := by
    unfold signed32 beBytes packi
    simp only [List.foldl_cons, List.foldl_nil]
    split_ifs <;> omega
  unfold seqInt
  rw [ht, hd, hv]

set_option maxHeartbeats 1600000 in
theorem seqLong_packq (n : Int) (rest : List Nat)
    (h1 : -0x8000000000000000 ≤ n) (h2 : n < 0x8000000000000000) :
    seqLong (packq n ++ rest) = (n, rest) := by
  have ht : (packq n ++ rest).take 8 = packq n := List.take_left' (length_packq n)
  have hd : (packq n ++ rest).drop 8 = rest := List.drop_left' (length_packq n)
  have hv : signed64 (beBytes (packq n)) = n := by
    unfold signed64 beBytes packq
    simp only [List.foldl_cons, List.foldl_nil]
    split_ifs <;> omega
  unfold seqLong
  rw [ht, hd, hv]

theorem int_struct_unpack_from_append (pre b : List Nat) (k : Nat) :
    int_struct_unpack_from (pre ++ b) (pre.length + k) =
      int_struct_unpack_from b k := by
  unfold int_struct_unpack_from
  rw [drop_append_add]
  simp only [List.length_append]
  by_cases h : k + int_struct_size ≤ b.length
  · rw [if_pos (by unfold int_struct_size at *; omega), if_pos h]
  · rw [if_neg (by unfold int_struct_size at *; omega), if_neg h]

theorem int_struct_unpack_from_packi (n : Int) (rest : List Nat)
    (h1 : -0x80000000 ≤ n) (h2 : n < 0x80000000) :
    int_struct_unpack_from (packi n ++ rest) 0 = some n := by
  unfold int_struct_unpack_from
  rw [if_pos (by simp [List.length_append, length_packi, int_struct_size])]
  rw [List.drop_zero, seqInt_packi n rest h1 h2]

theorem int_struct_pack_eq (n : Int) (out : List Nat)
    (h : int_struct_pack n = some out) :
    out = packi n ∧ -0x80000000 ≤ n ∧ n < 0x80000000 := by
  unfold int_struct_pack at h
  split_ifs at h with hr
  · exact ⟨(Option.some.injEq _ _ ▸ h).symm, hr⟩

theorem long_pack_eq (n : Int) (out : List Nat)
    (h : long_pack n = some out) :
    out = packq n ∧ -0x8000000000000000 ≤ n ∧ n < 0x8000000000000000 := by
  unfold long_pack at h
  split_ifs at h with hr
  · exact ⟨(Option.some.injEq _ _ ▸ h).symm, hr⟩

/-! ## UTF-8 round trip -/

theorem go_ascii (b : Nat) (t : List Nat) (h : b < 0x80) :
    utf8Go none (b :: t) = (utf8Go none t).map (fun cs => b :: cs) := by
  rw [utf8Go, if_pos h]

theorem go_lead2 (b : Nat) (t : List Nat) (h1 : 0xC2 ≤ b) (h2 : b < 0xE0) :
    utf8Go none (b :: t) = utf8Go (some (b - 0xC0, 1, 0x80, 0xC0)) t := by
  have g1 : ¬b < 0x80 := by omega
  have g2 : ¬b < 0xC2 := by omega
  rw [utf8Go, if_neg g1, if_neg g2, if_pos h2]

theorem go_leadE0 (t : List Nat) :
    utf8Go none (0xE0 :: t) = utf8Go (some (0, 2, 0xA0, 0xC0)) t := by
  rw [utf8Go]
  norm_num

theorem go_leadED (t : List Nat) :
    utf8Go none (0xED :: t) = utf8Go (some (13, 2, 0x80, 0xA0)) t := by
  rw [utf8Go]
  norm_num

theorem go_lead3 (b : Nat) (t : List Nat)
    (h1 : 0xE0 < b) (h2 : b ≠ 0xED) (h3 : b < 0xF0) :
    utf8Go none (b :: t) = utf8Go (some (b - 0xE0, 2, 0x80, 0xC0)) t := by
  have g1 : ¬b < 0x80 := by omega
  have g2 : ¬b < 0xC2 := by omega
  have g3 : ¬b < 0xE0 := by omega
  have g4 : ¬b = 0xE0 := by omega
  rw [utf8Go, if_neg g1, if_neg g2, if_neg g3, if_neg g4, if_neg h2, if_pos h3]

theorem go_leadF0 (t : List Nat) :
    utf8Go none (0xF0 :: t) = utf8Go (some (0, 3, 0x90, 0xC0)) t := by
  rw [utf8Go]
  norm_num

theorem go_leadF4 (t : List Nat) :
    utf8Go none (0xF4 :: t) = utf8Go (some (4, 3, 0x80, 0x90)) t := by
  rw [utf8Go]
  norm_num

theorem go_lead4 (b : Nat) (t : List Nat) (h1 : 0xF0 < b) (h2 : b < 0xF4) :
    utf8Go none (b :: t) = utf8Go (some (b - 0xF0, 3, 0x80, 0xC0)) t := by
  have g1 : ¬b < 0x80 := by omega
  have g2 : ¬b < 0xC2 := by omega
  have g3 : ¬b < 0xE0 := by omega
  have g4 : ¬b = 0xE0 := by omega
  have g5 : ¬b = 0xED := by omega
  have g6 : ¬b < 0xF0 := by omega
  have g7 : ¬b = 0xF0 := by omega
  have g8 : ¬b = 0xF4 := by omega
  rw [utf8Go, if_neg g1, if_neg g2, if_neg g3, if_neg g4, if_neg g5, if_neg g6,
      if_neg g7, if_neg g8, if_pos h2]

theorem go_cont_last (v b lo hi : Nat) (t : List Nat) (h1 : lo ≤ b) (h2 : b < hi) :
    utf8Go (some (v, 1, lo, hi)) (b :: t) =
      (utf8Go none t).map (fun cs => (v * 64 + (b - 0x80)) :: cs) := by
  rw [utf8Go, if_pos ⟨h1, h2⟩, if_pos (le_refl 1)]

theorem go_cont_more (v k b lo hi : Nat) (t : List Nat)
    (h1 : lo ≤ b) (h2 : b < hi) (hk : 1 < k) :
    utf8Go (some (v, k, lo, hi)) (b :: t) =
      utf8Go (some (v * 64 + (b - 0x80), k - 1, 0x80, 0xC0)) t := by
  have g : ¬k ≤ 1 := by omega
  rw [utf8Go, if_pos ⟨h1, h2⟩, if_neg g]

theorem utf8Decode_encodeChar (c : Nat) (e rest : List Nat)
    (h : utf8EncodeChar c = some e) :
    utf8Decode (e ++ rest) = (utf8Decode rest).map (fun cs => c :: cs) := by
  unfold utf8EncodeChar at h
  unfold utf8Decode
  split_ifs at h with h1 h2 h3 h4 h5 h6
  · injection h with he; subst he
    simp only [List.cons_append, List.nil_append]
    rw [go_ascii c rest h1]
  · injection h with he; subst he
    simp only [List.cons_append, List.nil_append]
    rw [go_lead2 _ _ (by omega) (by omega), go_cont_last _ _ _ _ _ (by omega) (by omega)]
    have hv : (0xC0 + c / 64 - 0xC0) * 64 + (0x80 + c % 64 - 0x80) = c := by omega
    rw [hv]
  · injection h with he; subst he
    simp only [List.cons_append, List.nil_append]
    by_cases hcE0 : c < 0x1000
    · have e0 : 0xE0 + c / 4096 = 0xE0 := by omega
      rw [e0, go_leadE0, go_cont_more _ _ _ _ _ _ (by omega) (by omega) (by omega),
          go_cont_last _ _ _ _ _ (by omega) (by omega)]
      have hv : (0 * 64 + (0x80 + c / 64 % 64 - 0x80)) * 64 + (0x80 + c % 64 - 0x80) = c := by
        omega
      rw [hv]
    · by_cases hcED : c / 4096 = 13
      · have e0 : 0xE0 + c / 4096 = 0xED := by omega
        rw [e0, go_leadED, go_cont_more _ _ _ _ _ _ (by omega) (by omega) (by omega),
            go_cont_last _ _ _ _ _ (by omega) (by omega)]
        have hv : (13 * 64 + (0x80 + c / 64 % 64 - 0x80)) * 64 + (0x80 + c % 64 - 0x80) = c := by
          omega
        rw [hv]
      · rw [go_lead3 _ _ (by omega) (by omega) (by omega),
            go_cont_more _ _ _ _ _ _ (by omega) (by omega) (by omega),
            go_cont_last _ _ _ _ _ (by omega) (by omega)]
        have hv : ((0xE0 + c / 4096 - 0xE0) * 64 + (0x80 + c / 64 % 64 - 0x80)) * 64 +
            (0x80 + c % 64 - 0x80) = c := by omega
        rw [hv]
  · injection h with he; subst he
    simp only [List.cons_append, List.nil_append]
    rw [go_lead3 _ _ (by omega) (by omega) (by omega),
        go_cont_more _ _ _ _ _ _ (by omega) (by omega) (by omega),
        go_cont_last _ _ _ _ _ (by omega) (by omega)]
    have hv : ((0xE0 + c / 4096 - 0xE0) * 64 + (0x80 + c / 64 % 64 - 0x80)) * 64 +
        (0x80 + c % 64 - 0x80) = c := by omega
    rw [hv]
  · injection h with he; subst he
    simp only [List.cons_append, List.nil_append]
    by_cases hcF0 : c < 0x40000
    · have e0 : 0xF0 + c / 262144 = 0xF0 := by omega
      rw [e0, go_leadF0, go_cont_more _ _ _ _ _ _ (by omega) (by omega) (by omega),
          go_cont_more _ _ _ _ _ _ (by omega) (by omega) (by omega),
          go_cont_last _ _ _ _ _ (by omega) (by omega)]
      have hv : ((0 * 64 + (0x80 + c / 4096 % 64 - 0x80)) * 64 + (0x80 + c / 64 % 64 - 0x80)) *
          64 + (0x80 + c % 64 - 0x80) = c := by omega
      rw [hv]
    · by_cases hcF4 : 0x100000 ≤ c
      · have e0 : 0xF0 + c / 262144 = 0xF4 := by omega
        rw [e0, go_leadF4, go_cont_more _ _ _ _ _ _ (by omega) (by omega) (by omega),
            go_cont_more _ _ _ _ _ _ (by omega) (by omega) (by omega),
            go_cont_last _ _ _ _ _ (by omega) (by omega)]
        have hv : ((4 * 64 + (0x80 + c / 4096 % 64 - 0x80)) * 64 + (0x80 + c / 64 % 64 - 0x80)) *
            64 + (0x80 + c % 64 - 0x80) = c := by omega
        rw [hv]
      · rw [go_lead4 _ _ (by omega) (by omega),
            go_cont_more _ _ _ _ _ _ (by omega) (by omega) (by omega),
            go_cont_more _ _ _ _ _ _ (by omega) (by omega) (by omega),
            go_cont_last _ _ _ _ _ (by omega) (by omega)]
        have hv : (((0xF0 + c / 262144 - 0xF0) * 64 + (0x80 + c / 4096 % 64 - 0x80)) * 64 +
            (0x80 + c / 64 % 64 - 0x80)) * 64 + (0x80 + c % 64 - 0x80) = c := by omega
        rw [hv]

theorem utf8Decode_encode_append (cs : List Nat) :
    ∀ e rest, utf8Encode cs = some e →
      utf8Decode (e ++ rest) = (utf8Decode rest).map (fun ds => cs ++ ds) := by
  induction cs with
  | nil =>
    intro e rest h
    injection h with he; subst he
    simp
  | cons c cs ih =>
    intro e rest h
    unfold utf8Encode at h
    cases hc : utf8EncodeChar c with
    | none => rw [hc] at h; exact Option.noConfusion h
    | some ec =>
      cases hcs : utf8Encode cs with
      | none => rw [hc, hcs] at h; exact Option.noConfusion h
      | some ecs =>
        rw [hc, hcs] at h
        injection h with he; subst he
        rw [List.append_assoc, utf8Decode_encodeChar c ec _ hc, ih ecs rest hcs]
        cases utf8Decode rest <;> rfl

theorem utf8Decode_encode (cs e : List Nat) (h : utf8Encode cs = some e) :
    utf8Decode e = some cs := by
  have h2 := utf8Decode_encode_append cs e [] h
  simpa [utf8Decode, utf8Go] using h2

theorem utf8EncodeChar_ne_nil (c : Nat) (e : List Nat)
    (h : utf8EncodeChar c = some e) : e ≠ [] := by
  unfold utf8EncodeChar at h
  split_ifs at h <;> (injection h with he; subst he; simp)

theorem utf8Encode_cons_ne_nil (c : Nat) (cs e : List Nat)
    (h : utf8Encode (c :: cs) = some e) : e ≠ [] := by
  unfold utf8Encode at h
  cases hc : utf8EncodeChar c with
  | none => rw [hc] at h; exact Option.noConfusion h
  | some ec =>
    cases hcs : utf8Encode cs with
    | none => rw [hc, hcs] at h; exact Option.noConfusion h
    | some ecs =>
      rw [hc, hcs] at h
      injection h with he; subst he
      have := utf8EncodeChar_ne_nil c ec hc
      cases ec with
      | nil => exact absurd rfl this
      | cons x xs => simp

/-! ## Length-prefixed string and buffer round trips -/

theorem read_string_append (pre b : List Nat) (k : Nat) :
    read_string (pre ++ b) (pre.length + k) =
      (read_string b k).map (fun r => (r.1, pre.length + r.2)) := by
  unfold read_string
  rw [int_struct_unpack_from_append]
  cases hx : int_struct_unpack_from b k with
  | none => rfl
  | some length =>
    simp only [Option.some_bind]
    by_cases hneg : length < 0
    · rw [if_pos hneg, if_pos hneg]
      simp [Nat.add_assoc]
    · rw [if_neg hneg, if_neg hneg]
      have hdrop : (pre ++ b).drop (pre.length + k + int_struct_size) =
          b.drop (k + int_struct_size) := by
        rw [Nat.add_assoc, drop_append_add]
      rw [hdrop]
      cases utf8Decode ((b.drop (k + int_struct_size)).take length.toNat) with
      | none => rfl
      | some s => simp [Nat.add_assoc]

theorem read_buffer_append (pre b : List Nat) (k : Nat) :
    read_buffer (pre ++ b) (pre.length + k) =
      (read_buffer b k).map (fun r => (r.1, pre.length + r.2)) := by
  unfold read_buffer
  rw [int_struct_unpack_from_append]
  cases hx : int_struct_unpack_from b k with
  | none => rfl
  | some length =>
    simp only [Option.some_bind]
    by_cases hneg : length < 0
    · rw [if_pos hneg, if_pos hneg]
      simp [Nat.add_assoc]
    · rw [if_neg hneg, if_neg hneg]
      have hdrop : (pre ++ b).drop (pre.length + k + int_struct_size) =
          b.drop (k + int_struct_size) := by
        rw [Nat.add_assoc, drop_append_add]
      rw [hdrop]
      simp [Nat.add_assoc]

theorem write_string_cons_inv (c : Nat) (cs' out : List Nat)
    (hw : write_string (some (c :: cs')) = some out) :
    ∃ u, utf8Encode (c :: cs') = some u ∧ ((u.length : Nat) : Int) < 0x80000000 ∧
      out = packi ((u.length : Nat) : Int) ++ u := by
  rw [show write_string (some (c :: cs')) =
      (utf8Encode (c :: cs')).bind (fun u =>
        (int_struct_pack (u.length : Int)).map (fun lp => lp ++ u)) from rfl,
    Option.bind_eq_some] at hw
  obtain ⟨u, hu, hmap⟩ := hw
  rw [Option.map_eq_some'] at hmap
  obtain ⟨lp, hp, he⟩ := hmap
  obtain ⟨hlp, _hge, hlt⟩ := int_struct_pack_eq _ _ hp
  exact ⟨u, hu, hlt, by rw [← he, hlp]⟩

theorem write_buffer_cons_inv (x : Nat) (xs out : List Nat)
    (hw : write_buffer (some (x :: xs)) = some out) :
    (((x :: xs).length : Nat) : Int) < 0x80000000 ∧
      out = packi (((x :: xs).length : Nat) : Int) ++ (x :: xs) := by
  rw [show write_buffer (some (x :: xs)) =
      (int_struct_pack (((x :: xs).length : Nat) : Int)).map
        (fun lp => lp ++ (x :: xs)) from rfl,
    Option.map_eq_some'] at hw
  obtain ⟨lp, hp, he⟩ := hw
  obtain ⟨hlp, _hge, hlt⟩ := int_struct_pack_eq _ _ hp
  exact ⟨hlt, by rw [← he, hlp]⟩

theorem read_string_of_write (s : Option (List Nat)) (out rest : List Nat)
    (hne : s ≠ some []) (hw : write_string s = some out) :
    read_string (out ++ rest) 0 = some (s, out.length) := by
  cases s with
  | none =>
    unfold write_string at hw
    have he : packi (-1) = out := Option.some.inj hw
    subst he
    unfold read_string
    rw [int_struct_unpack_from_packi (-1) rest (by norm_num) (by norm_num)]
    simp [int_struct_size, length_packi]
  | some cs =>
    cases cs with
    | nil => exact absurd rfl hne
    | cons c cs' =>
      obtain ⟨u, hu, hlt, he⟩ := write_string_cons_inv c cs' out hw
      subst he
      unfold read_string
      rw [List.append_assoc, int_struct_unpack_from_packi _ _ (by omega) hlt]
      simp only [Option.some_bind]
      have hnn : ¬(((u.length : Nat) : Int) < 0) := by omega
      rw [if_neg hnn]
      have hdrop : (packi ((u.length : Nat) : Int) ++ (u ++ rest)).drop
          (0 + int_struct_size) = u ++ rest :=
        List.drop_left' (length_packi _)
      rw [hdrop]
      have htn : (((u.length : Nat) : Int)).toNat = u.length := by omega
      rw [htn, List.take_left, utf8Decode_encode _ _ hu]
      simp [int_struct_size, length_packi, List.length_append]

theorem read_buffer_of_write (bs out rest : List Nat) (hne : bs ≠ [])
    (hw : write_buffer (some bs) = some out) :
    read_buffer (out ++ rest) 0 = some (bs, out.length) := by
  cases bs with
  | nil => exact absurd rfl hne
  | cons x xs =>
    obtain ⟨hlt, he⟩ := write_buffer_cons_inv x xs out hw
    subst he
    unfold read_buffer
    rw [List.append_assoc, int_struct_unpack_from_packi _ _ (by omega) hlt]
    simp only [Option.some_bind]
    have hnn : ¬((((x :: xs).length : Nat) : Int) < 0) := by omega
    rw [if_neg hnn]
    have hdrop : (packi (((x :: xs).length : Nat) : Int) ++ ((x :: xs) ++ rest)).drop
        (0 + int_struct_size) = (x :: xs) ++ rest :=
      List.drop_left' (length_packi _)
    rw [hdrop]
    have htn : ((((x :: xs).length : Nat) : Int)).toNat = (x :: xs).length := by omega
    rw [htn, List.take_left]
    simp [int_struct_size, length_packi, List.length_append]

theorem int_unpack_at (pre : List Nat) (n : Int) (tail : List Nat)
    (h1 : -0x80000000 ≤ n) (h2 : n < 0x80000000) :
    int_struct_unpack_from (pre ++ (packi n ++ tail)) pre.length = some n := by
  have h := int_struct_unpack_from_append pre (packi n ++ tail) 0
  rw [Nat.add_zero] at h
  rw [h, int_struct_unpack_from_packi n tail h1 h2]

theorem read_string_at (pre ws tail : List Nat) (s : Option (List Nat))
    (hs : s ≠ some []) (hws : write_string s = some ws) :
    read_string (pre ++ (ws ++ tail)) pre.length = some (s, pre.length + ws.length) := by
  have h := read_string_append pre (ws ++ tail) 0
  rw [Nat.add_zero] at h
  rw [h, read_string_of_write s ws tail hs hws]
  simp

/-! ## ACL entry and ACL list round trips -/

theorem read_acl_append (pre b : List Nat) (k : Nat) :
    read_acl (pre ++ b) (pre.length + k) =
      (read_acl b k).map (fun r => (r.1, pre.length + r.2)) := by
  unfold read_acl
  rw [int_struct_unpack_from_append]
  cases hx : int_struct_unpack_from b k with
  | none => rfl
  | some perms =>
    simp only [Option.some_bind]
    rw [show pre.length + k + int_struct_size = pre.length + (k + int_struct_size)
        from by omega]
    rw [read_string_append]
    cases h1 : read_string b (k + int_struct_size) with
    | none => rfl
    | some sr =>
      simp only [Option.map_some', Option.some_bind]
      rw [read_string_append]
      cases h2 : read_string b sr.2 with
      | none => rfl
      | some ir => simp

theorem read_acl_n_append (pre b : List Nat) : ∀ (n k : Nat),
    read_acl_n (pre ++ b) (pre.length + k) n =
      (read_acl_n b k n).map (fun r => (r.1, pre.length + r.2)) := by
  intro n
  induction n with
  | zero => intro k; rfl
  | succ n ih =>
    intro k
    unfold read_acl_n
    rw [read_acl_append]
    cases h1 : read_acl b k with
    | none => rfl
    | some ar =>
      simp only [Option.map_some', Option.some_bind]
      rw [ih ar.2]
      cases h2 : read_acl_n b ar.2 n with
      | none => rfl
      | some rr => simp

theorem read_acl_of_write (a : ACL) (out rest : List Nat)
    (hs : a.id.scheme ≠ some []) (hi : a.id.id ≠ some [])
    (hw : write_acl_entry a = some out) :
    read_acl (out ++ rest) 0 = some (a, out.length) := by
  unfold write_acl_entry at hw
  rw [Option.bind_eq_some] at hw
  obtain ⟨p, hp, hw⟩ := hw
  rw [Option.bind_eq_some] at hw
  obtain ⟨ws, hws, hw⟩ := hw
  rw [Option.map_eq_some'] at hw
  obtain ⟨wi, hwi, he⟩ := hw
  subst he
  obtain ⟨hpi, hge, hlt⟩ := int_struct_pack_eq _ _ hp
  subst hpi
  unfold read_acl
  simp only [List.append_assoc]
  rw [int_struct_unpack_from_packi a.perms (ws ++ (wi ++ rest)) hge hlt]
  simp only [Option.some_bind]
  rw [show (0 : Nat) + int_struct_size = (packi a.perms).length from by
      simp [int_struct_size, length_packi]]
  rw [read_string_at (packi a.perms) ws (wi ++ rest) a.id.scheme hs hws]
  simp only [Option.some_bind]
  rw [show packi a.perms ++ (ws ++ (wi ++ rest)) =
      (packi a.perms ++ ws) ++ (wi ++ rest) from by simp [List.append_assoc]]
  rw [show (packi a.perms).length + ws.length = (packi a.perms ++ ws).length from
      (List.length_append _ _).symm]
  rw [read_string_at (packi a.perms ++ ws) wi rest a.id.id hi hwi]
  simp [List.length_append, Nat.add_assoc]

theorem read_acl_n_of_write (acls : List ACL) : ∀ (out rest : List Nat),
    (∀ a ∈ acls, a.id.scheme ≠ some [] ∧ a.id.id ≠ some []) →
    write_acls acls = some out →
    read_acl_n (out ++ rest) 0 acls.length = some (acls, out.length) := by
  induction acls with
  | nil =>
    intro out rest _ hw
    have he : ([] : List Nat) = out := Option.some.inj hw
    subst he
    rfl
  | cons a as ih =>
    intro out rest hok hw
    unfold write_acls at hw
    rw [Option.bind_eq_some] at hw
    obtain ⟨e, he, hw⟩ := hw
    rw [Option.map_eq_some'] at hw
    obtain ⟨es, hes, heq⟩ := hw
    subst heq
    show read_acl_n ((e ++ es) ++ rest) 0 (as.length + 1) = _
    unfold read_acl_n
    rw [List.append_assoc]
    rw [read_acl_of_write a e (es ++ rest) (hok a (by simp)).1 (hok a (by simp)).2 he]
    simp only [Option.some_bind]
    have hsh := read_acl_n_append e (es ++ rest) as.length 0
    rw [Nat.add_zero] at hsh
    rw [hsh, ih es rest (fun x hx => hok x (by simp [hx])) hes]
    simp [List.length_append]

/-! ## Node-metadata record decode -/

theorem length_stat_struct_pack (s : ZnodeStat) :
    (stat_struct_pack s).length = stat_struct_size := by
  simp [stat_struct_pack, stat_struct_size, List.length_append, length_packi,
    length_packq]

theorem stat_struct_unpack_from_pack (s : ZnodeStat) (pre rest : List Nat)
    (h : ValidStat s) :
    stat_struct_unpack_from (pre ++ (stat_struct_pack s ++ rest)) pre.length =
      some s := by
  obtain ⟨h1, h2, h3, h4, h5, h6, h7, h8, h9, h10, h11, h12, h13, h14, h15, h16,
    h17, h18, h19, h20, h21, h22⟩ := h
  unfold stat_struct_unpack_from
  rw [if_pos (by
    simp only [List.length_append, length_stat_struct_pack, stat_struct_size]
    omega)]
  rw [List.drop_left]
  simp only [stat_struct_pack, List.append_assoc,
    seqLong_packq _ _ h1 h2, seqLong_packq _ _ h3 h4, seqLong_packq _ _ h5 h6,
    seqLong_packq _ _ h7 h8, seqInt_packi _ _ h9 h10, seqInt_packi _ _ h11 h12,
    seqInt_packi _ _ h13 h14, seqLong_packq _ _ h15 h16, seqInt_packi _ _ h17 h18,
    seqInt_packi _ _ h19 h20, seqLong_packq _ _ h21 h22]

/-! ## Claim theorems -/

/-- C1 counterexample: the node-metadata record is 68 bytes, not 88 — a
68-byte buffer (too short to hold an 88-byte record) decodes successfully
into all eleven fields, and the fixed record size constant is not 88. -/
theorem stat_record_not_88_bytes_cex :
    stat_struct_size ≠ 88 ∧ (List.replicate 68 0).length < 88 ∧
      stat_struct_unpack_from (List.replicate 68 0) 0 =
        some ⟨0, 0, 0, 0, 0, 0, 0, 0, 0, 0, 0⟩ := by
  decide

/-- C1 (amended): decoding a node-metadata record from a buffer at a given
offset consumes exactly the fixed record size of 68 bytes (the sum of the
six 8-byte and five 4-byte field widths of `stat_struct`) and reconstructs
all eleven fields in the documented order, for every buffer holding at
least one full record at that offset. -/
theorem stat_decode_consumes_68_bytes (s : ZnodeStat) (pre rest : List Nat)
    (h : ValidStat s) :
    stat_struct_size = 68 ∧ (stat_struct_pack s).length = stat_struct_size ∧
      stat_struct_unpack_from (pre ++ (stat_struct_pack s ++ rest)) pre.length =
        some s :=
  ⟨rfl, length_stat_struct_pack s, stat_struct_unpack_from_pack s pre rest h⟩

/-- Witness for C1: the amended theorem applied to a concrete record,
prefix and suffix. -/
theorem stat_decode_consumes_68_bytes_witness :
    stat_struct_size = 68 ∧
      (stat_struct_pack ⟨1, 2, 3, 4, 5, 6, 7, 8, 9, 10, 11⟩).length =
        stat_struct_size ∧
      stat_struct_unpack_from
        ([0] ++ (stat_struct_pack ⟨1, 2, 3, 4, 5, 6, 7, 8, 9, 10, 11⟩ ++ [7]))
        1 = some ⟨1, 2, 3, 4, 5, 6, 7, 8, 9, 10, 11⟩ :=
  stat_decode_consumes_68_bytes ⟨1, 2, 3, 4, 5, 6, 7, 8, 9, 10, 11⟩ [0] [7]
    (by decide)

/-- C2: `SetACL.serialize` reads `self.acl`, but the namedtuple field is
declared `acls`, so the attribute lookup fails and serialization raises
instead of returning the encoded request — here evaluated at the concrete
failing input `SetACL(path='/', acls=[ACL(31, Id('world', 'anyone'))],
version=0)`. -/
theorem setacl_serialize_attribute_error :
    SetACL.serialize
      ⟨some [47],
       [⟨31, ⟨some [119, 111, 114, 108, 100],
              some [97, 110, 121, 111, 110, 101]⟩⟩], 0⟩ = none := by
  decide

/-- C3 counterexample: the empty string does not round trip — it is written
as the absent sentinel `-1` and decodes back as the absent value, not as
the empty string. -/
theorem string_roundtrip_empty_cex :
    write_string (some []) = some [255, 255, 255, 255] ∧
      read_string [255, 255, 255, 255] 0 = some (none, 4) ∧
      (none : Option (List Nat)) ≠ some [] := by
  decide

/-- C3 (amended): for every text value `s` that is absent or non-empty,
decoding the bytes produced by encoding `s`, starting at offset 0, yields
`s` back, and the final offset equals the starting offset plus the number
of bytes the encoding produced.  (The empty string is excluded: it encodes
as `-1` and decodes back as the absent value.) -/
theorem read_write_string_roundtrip (s : Option (List Nat)) (out : List Nat)
    (hne : s ≠ some []) (hw : write_string s = some out) :
    read_string out 0 = some (s, out.length) := by
  have h := read_string_of_write s out [] hne hw
  rwa [List.append_nil] at h

/-- Witness for C3: the round trip applied to the two-character string
`"hi"`. -/
theorem read_write_string_roundtrip_witness :
    read_string [0, 0, 0, 2, 104, 105] 0 = some (some [104, 105], 6) :=
  read_write_string_roundtrip (some [104, 105]) [0, 0, 0, 2, 104, 105]
    (by decide) (by decide)

/-- C8: for every non-empty byte sequence, decoding the encoding returns
exactly the sequence with the offset advanced past the 4-byte length prefix
plus the payload; and encoding an empty or absent buffer writes the 4-byte
value `-1`, whose decoding returns an empty byte sequence and advances past
the length field only. -/
theorem buffer_roundtrip_and_sentinel :
    (∀ (bs out : List Nat), bs ≠ [] → write_buffer (some bs) = some out →
      read_buffer out 0 = some (bs, out.length)) ∧
      write_buffer (some []) = some (packi (-1)) ∧
      write_buffer none = some (packi (-1)) ∧
      read_buffer (packi (-1)) 0 = some ([], int_struct_size) := by
  refine ⟨?_, by decide, by decide, by decide⟩
  intro bs out hne hw
  have h := read_buffer_of_write bs out [] hne hw
  rwa [List.append_nil] at h

/-- Witness for C8: the round trip applied to the two-byte buffer `[7, 8]`. -/
theorem buffer_roundtrip_and_sentinel_witness :
    read_buffer [0, 0, 0, 2, 7, 8] 0 = some ([7, 8], 6) :=
  buffer_roundtrip_and_sentinel.1 [7, 8] [0, 0, 0, 2, 7, 8] (by decide) (by decide)

/-- C9: two `GetChildren` values that agree on `path` and `watcher` but
differ in the `children` field serialize to byte-for-byte identical output;
the encoded request depends only on `path` and `watcher`. -/
theorem getchildren_serialize_ignores_children
    (path : Option (List Nat)) (w : Bool)
    (c1 c2 : Option (List (Option (List Nat)))) :
    GetChildren.serialize ⟨path, c1, w⟩ = GetChildren.serialize ⟨path, c2, w⟩ :=
  rfl

/-- C10: a 4-byte length prefix equal to 0 makes `read_string` return the
empty text value (not the absent outcome reserved for negative lengths),
advancing the offset by exactly 4 bytes; and `write_string` itself never
produces a 0 length prefix, since it encodes the empty text as `-1`. -/
theorem read_string_zero_length :
    (∀ (b : List Nat) (off : Nat), int_struct_unpack_from b off = some 0 →
      read_string b off = some (some [], off + int_struct_size)) ∧
      (∀ (s : Option (List Nat)) (out : List Nat), write_string s = some out →
        ¬int_struct_unpack_from out 0 = some 0) := by
  constructor
  · intro b off h
    unfold read_string
    rw [h]
    simp only [Option.some_bind]
    rw [if_neg (by norm_num)]
    rw [show ((0 : Int)).toNat = 0 from rfl]
    simp [utf8Decode, utf8Go]
  · intro s out hw
    cases s with
    | none =>
      unfold write_string at hw
      have he : packi (-1) = out := Option.some.inj hw
      subst he
      intro hcontra
      have hv : int_struct_unpack_from (packi (-1)) 0 = some (-1) := by decide
      have h2 := Option.some.inj (hv.symm.trans hcontra)
      exact absurd h2 (by norm_num)
    | some cs =>
      cases cs with
      | nil =>
        unfold write_string at hw
        have he : packi (-1) = out := Option.some.inj hw
        subst he
        intro hcontra
        have hv : int_struct_unpack_from (packi (-1)) 0 = some (-1) := by decide
        have h2 := Option.some.inj (hv.symm.trans hcontra)
        exact absurd h2 (by norm_num)
      | cons c cs' =>
        obtain ⟨u, hu, hlt, he⟩ := write_string_cons_inv c cs' out hw
        subst he
        intro hcontra
        rw [int_struct_unpack_from_packi _ _ (by omega) hlt] at hcontra
        have h2 := Option.some.inj hcontra
        have h3 := utf8Encode_cons_ne_nil c cs' u hu
        have h4 : u.length ≠ 0 := by simpa using h3
        omega

/-- Witness for C10: a zero length prefix decodes to the empty string, and
the absent string's encoding does not start with a zero prefix. -/
theorem read_string_zero_length_witness :
    read_string [0, 0, 0, 0, 9] 0 = some (some [], 4) ∧
      ¬int_struct_unpack_from [255, 255, 255, 255] 0 = some 0 :=
  ⟨read_string_zero_length.1 [0, 0, 0, 0, 9] 0 (by decide),
   read_string_zero_length.2 none [255, 255, 255, 255] (by decide)⟩

theorem read_acl_n_one (b : List Nat) (off : Nat) :
    read_acl_n b off 1 = (read_acl b off).map (fun ar => ([ar.1], ar.2)) := by
  show read_acl_n b off (0 + 1) = _
  unfold read_acl_n
  cases h : read_acl b off with
  | none => rfl
  | some ar => rfl

/-- C4 counterexample: an ACL entry whose scheme is the empty string does
not round trip — the empty scheme is encoded as the `-1` sentinel and
decodes back as the absent value, so the identity-pair text field is not
preserved exactly. -/
theorem acl_list_roundtrip_cex :
    (write_acl_list [⟨1, ⟨some [], some [97]⟩⟩]).bind
        (fun out => read_acl_list out 0) =
      some ([⟨1, ⟨none, some [97]⟩⟩], 17) ∧
      (⟨1, (⟨none, some [97]⟩ : Id)⟩ : ACL) ≠ ⟨1, ⟨some [], some [97]⟩⟩ := by
  decide

/-- C4 (amended): for every list of N ACL entries (N = 0, 1, 5) whose
permission bitmasks fit the wire width and whose scheme and identifier
fields are each absent or non-empty, encoding the list as a 4-byte count
followed by the entries (as in `Create.serialize`) and then decoding it
(as in `GetACL.deserialize` via `read_acl`) preserves entry order, every
permission bitmask value, and every identity-pair text field exactly. -/
theorem acl_list_roundtrip (acls : List ACL) (out : List Nat)
    (_hN : acls.length = 0 ∨ acls.length = 1 ∨ acls.length = 5)
    (hok : ∀ a ∈ acls, a.id.scheme ≠ some [] ∧ a.id.id ≠ some [])
    (hw : write_acl_list acls = some out) :
    read_acl_list out 0 = some (acls, out.length) := by
  clear _hN
  unfold write_acl_list at hw
  rw [Option.bind_eq_some] at hw
  obtain ⟨cnt, hcnt, hw⟩ := hw
  rw [Option.map_eq_some'] at hw
  obtain ⟨es, hes, heq⟩ := hw
  subst heq
  obtain ⟨hc, hge, hlt⟩ := int_struct_pack_eq _ _ hcnt
  subst hc
  unfold read_acl_list
  rw [int_struct_unpack_from_packi _ _ hge hlt]
  simp only [Option.some_bind]
  rw [if_neg (by omega)]
  rw [show (((acls.length : Nat) : Int)).toNat = acls.length from by omega]
  rw [show (0 : Nat) + int_struct_size =
      (packi ((acls.length : Nat) : Int)).length + 0 from by
    simp [int_struct_size, length_packi]]
  rw [read_acl_n_append]
  have hrn := read_acl_n_of_write acls es [] hok hes
  rw [List.append_nil] at hrn
  rw [hrn]
  simp [List.length_append, length_packi]

/-- Witness for C4: the round trip applied to a one-entry list with scheme
`"w"` and identifier `"a"`. -/
theorem acl_list_roundtrip_witness :
    read_acl_list [0, 0, 0, 1, 0, 0, 0, 1, 0, 0, 0, 1, 119, 0, 0, 0, 1, 97] 0 =
      some ([⟨1, ⟨some [119], some [97]⟩⟩], 18) :=
  acl_list_roundtrip [⟨1, ⟨some [119], some [97]⟩⟩]
    [0, 0, 0, 1, 0, 0, 0, 1, 0, 0, 0, 1, 119, 0, 0, 0, 1, 97]
    (by decide) (by decide) (by decide)

/-- C5: the handshake request with protocol version 0, last-seen
transaction id 0, timeout 30000, session id 0, empty password and
read-only false serializes to exactly the `(int, long, int, long)` packed
fields, then the length-prefixed (empty, hence `-1`) password buffer, then
one byte equal to 0; and decoding any handshake response buffer of the
`(int, int, long)` plus length-prefixed-buffer shape yields a value whose
`last_zxid_seen` and `read_only` fields are 0 by construction. -/
theorem connect_handshake_asymmetry :
    Connect.serialize ⟨0, 0, 30000, 0, some [], 0⟩ =
      some (packi 0 ++ packq 0 ++ packi 30000 ++ packq 0 ++ packi (-1) ++ [0]) ∧
      ∀ (b : List Nat) (off : Nat) (c : Connect) (off2 : Nat),
        Connect.deserialize b off = some (c, off2) →
          c.last_zxid_seen = 0 ∧ c.read_only = 0 := by
  constructor
  · decide
  · intro b off c off2 h
    unfold Connect.deserialize at h
    rw [Option.bind_eq_some] at h
    obtain ⟨hdr, _, h⟩ := h
    rw [Option.map_eq_some'] at h
    obtain ⟨pr, _, he⟩ := h
    rw [Prod.ext_iff] at he
    obtain ⟨h1, _⟩ := he
    subst h1
    exact ⟨rfl, rfl⟩

/-- Witness for C5: the deserialize half applied to a concrete 20-byte
response buffer. -/
theorem connect_handshake_asymmetry_witness :
    (⟨0, 0, 0, 0, some [], 0⟩ : Connect).last_zxid_seen = 0 ∧
      (⟨0, 0, 0, 0, some [], 0⟩ : Connect).read_only = 0 :=
  connect_handshake_asymmetry.2
    (List.replicate 16 0 ++ [255, 255, 255, 255]) 0
    ⟨0, 0, 0, 0, some [], 0⟩ 20 (by decide)

/-- C6: for every buffer containing a node-metadata record at the given
offset, `Exists.deserialize` returns the decoded record when its `czxid`
field differs from `-1`, and returns no record (`None`) when that field
equals `-1`. -/
theorem exists_czxid_sentinel (s : ZnodeStat) (pre rest : List Nat)
    (h : ValidStat s) :
    ExistsOp.deserialize (pre ++ (stat_struct_pack s ++ rest)) pre.length =
      some (if s.czxid = -1 then none else some s) := by
  unfold ExistsOp.deserialize
  rw [stat_struct_unpack_from_pack s pre rest h]
  simp only [Option.map_some']
  by_cases hc : s.czxid = -1
  · simp [hc]
  · simp [hc]

/-- Witness for C6: the sentinel behaviour at a record with `czxid = -1`
and at a record with `czxid = 5`. -/
theorem exists_czxid_sentinel_witness :
    ExistsOp.deserialize
        ([] ++ (stat_struct_pack ⟨-1, 0, 0, 0, 0, 0, 0, 0, 0, 0, 0⟩ ++ []))
        0 = some none ∧
      ExistsOp.deserialize
        ([] ++ (stat_struct_pack ⟨5, 0, 0, 0, 0, 0, 0, 0, 0, 0, 0⟩ ++ []))
        0 = some (some ⟨5, 0, 0, 0, 0, 0, 0, 0, 0, 0, 0⟩) :=
  ⟨exists_czxid_sentinel ⟨-1, 0, 0, 0, 0, 0, 0, 0, 0, 0, 0⟩ [] [] (by decide),
   exists_czxid_sentinel ⟨5, 0, 0, 0, 0, 0, 0, 0, 0, 0, 0⟩ [] [] (by decide)⟩

/-- C7: a `GetACL` response whose 4-byte count prefix is `-1` decodes to
the bare empty list, consuming no metadata record; a count prefix of 1
followed by one encoded ACL entry and a metadata record decodes to the
pair of the one-element ACL list and the decoded record. -/
theorem getacl_shape_divergence
    (b : List Nat) (off : Nat) (a : ACL) (ea : List Nat) (s : ZnodeStat)
    (pre rest : List Nat) :
    (int_struct_unpack_from b off = some (-1) →
      GetACL.deserialize b off = some (GetACLResult.bareList [])) ∧
      (write_acl_entry a = some ea → a.id.scheme ≠ some [] →
        a.id.id ≠ some [] → ValidStat s →
        GetACL.deserialize
          (pre ++ (packi 1 ++ (ea ++ (stat_struct_pack s ++ rest))))
          pre.length = some (GetACLResult.withStat [a] s)) := by
  constructor
  · intro h
    unfold GetACL.deserialize
    rw [h]
    simp only [Option.some_bind]
    simp only [if_true, eq_self_iff_true]
  · intro hea hs hi hst
    unfold GetACL.deserialize
    rw [int_unpack_at pre 1 (ea ++ (stat_struct_pack s ++ rest))
      (by norm_num) (by norm_num)]
    simp only [Option.some_bind]
    rw [if_neg (by norm_num)]
    rw [show ((1 : Int)).toNat = 1 from rfl]
    rw [show pre ++ (packi 1 ++ (ea ++ (stat_struct_pack s ++ rest))) =
        (pre ++ packi 1) ++ (ea ++ (stat_struct_pack s ++ rest)) from
      (List.append_assoc _ _ _).symm]
    rw [show pre.length + int_struct_size = (pre ++ packi 1).length + 0 from by
      simp [List.length_append, length_packi, int_struct_size]]
    rw [read_acl_n_append, read_acl_n_one]
    rw [read_acl_of_write a ea (stat_struct_pack s ++ rest) hs hi hea]
    simp only [Option.map_some', Option.some_bind]
    rw [show (pre ++ packi 1) ++ (ea ++ (stat_struct_pack s ++ rest)) =
        ((pre ++ packi 1) ++ ea) ++ (stat_struct_pack s ++ rest) from
      (List.append_assoc _ _ _).symm]
    rw [show (pre ++ packi 1).length + ea.length =
        ((pre ++ packi 1) ++ ea).length from (List.length_append _ _).symm]
    rw [stat_struct_unpack_from_pack s ((pre ++ packi 1) ++ ea) rest hst]
    rfl

/-- Witness for C7: both halves at concrete inputs — a `-1` count buffer,
and a count-1 buffer holding one world-readable-style entry with absent
texts followed by a concrete record. -/
theorem getacl_shape_divergence_witness :
    GetACL.deserialize [255, 255, 255, 255] 0 =
      some (GetACLResult.bareList []) ∧
      GetACL.deserialize
        ([] ++ (packi 1 ++
          ([0, 0, 0, 1, 255, 255, 255, 255, 255, 255, 255, 255] ++
            (stat_struct_pack ⟨1, 2, 3, 4, 5, 6, 7, 8, 9, 10, 11⟩ ++ []))))
        0 =
        some (GetACLResult.withStat [⟨1, ⟨none, none⟩⟩]
          ⟨1, 2, 3, 4, 5, 6, 7, 8, 9, 10, 11⟩) :=
  ⟨(getacl_shape_divergence [255, 255, 255, 255] 0 ⟨1, ⟨none, none⟩⟩
      [0, 0, 0, 1, 255, 255, 255, 255, 255, 255, 255, 255]
      ⟨1, 2, 3, 4, 5, 6, 7, 8, 9, 10, 11⟩ [] []).1 (by decide),
   (getacl_shape_divergence [255, 255, 255, 255] 0 ⟨1, ⟨none, none⟩⟩
      [0, 0, 0, 1, 255, 255, 255, 255, 255, 255, 255, 255]
      ⟨1, 2, 3, 4, 5, 6, 7, 8, 9, 10, 11⟩ [] []).2
      (by decide) (by decide) (by decide) (by decide)⟩

end KazooSer
